import Mathlib

/-!
Verification of the Podcast Feed & Episode Publishing Engine of the gyandex
repository. The engine itself (metadata store, storage backend, feed builder,
publishing engine) is modelled from the specification; the notebook caller
`publish.ipynb` fixes the public calling convention that is embedded in the
`PodcastPublisher` definitions below.
-/

namespace Gyandex

/-- Modelled from the spec: the error kinds of §7 of the specification
(the repository module `gyandex.podgen.engine.publisher` that raises them is
not among the provided sources). -/
inductive Err
  | duplicateSlug
  | notFound
  | uploadFailure
  | metadataWriteFailure
  | inconsistentState
  | feedPublishFailure
deriving DecidableEq

/-- Modelled from the spec: the feed configuration record of §6 supplied by
configuration loading. -/
structure FeedConfig where
  slug : String
  title : String
  description : String
  author : String
  email : String
  language : String
  categories : List String
  image_url : Option String
  website_url : Option String
deriving DecidableEq

/-- Modelled from the spec: the Feed record of §3 (store-assigned `id` and
`created_at`, plus the configuration fields). -/
structure Feed where
  id : Nat
  slug : String
  title : String
  description : String
  author : String
  email : String
  language : String
  categories : List String
  image_url : Option String
  website_url : Option String
  created_at : Nat
deriving DecidableEq

/-- Modelled from the spec: the Episode record of §3. Timestamps are modelled
as natural numbers (a logical clock). -/
structure Episode where
  id : Nat
  feed_id : Nat
  guid : String
  title : String
  description : String
  audio_url : String
  audio_length_bytes : Nat
  duration_seconds : Nat
  mime_type : String
  episode_number : Option Nat
  season_number : Option Nat
  published_at : Nat
deriving DecidableEq

/-- Episode metadata supplied by the caller of `add_episode`, field-for-field
the `PodcastMetadata` constructor exercised in `publish.ipynb`. -/
structure PodcastMetadata where
  title : String
  description : String
  episode_number : Option Nat
  season_number : Option Nat
deriving DecidableEq

/-- Modelled from the spec: the audio artifact of §6 — an opaque byte content
(modelled as a string) plus file extension, MIME type and duration. -/
structure AudioArtifact where
  content : String
  ext : String
  mime_type : String
  duration_seconds : Nat
deriving DecidableEq

/-- Modelled from the spec: the episode fields written by `upsert_episode`
(§4.1); the store assigns `id` and `feed_id` itself. -/
structure EpisodeData where
  guid : String
  title : String
  description : String
  audio_url : String
  audio_length_bytes : Nat
  duration_seconds : Nat
  mime_type : String
  episode_number : Option Nat
  season_number : Option Nat
  published_at : Nat
deriving DecidableEq

/-- Modelled from the spec: the MetadataStore of §4.1 (its implementation,
`gyandex.podgen.feed.models`, is not among the provided sources) — Feed and
Episode tables plus auto-increment counters. -/
structure MetadataStore where
  feeds : List Feed
  episodes : List Episode
  next_feed_id : Nat
  next_episode_id : Nat
deriving DecidableEq

def emptyStore : MetadataStore := ⟨[], [], 1, 1⟩

/-- Modelled from the spec: `get_feed(slug)` of §4.1 — lookup by slug. -/
def MetadataStore.getFeed (st : MetadataStore) (slug : String) : Option Feed :=
  st.feeds.find? (fun f => f.slug == slug)

/-- Modelled from the spec: `create_feed(config)` of §4.1 — fails with
`DuplicateSlugError` if the slug already exists, otherwise inserts and returns
the new Feed with assigned `id` and `created_at`. -/
def MetadataStore.createFeed (st : MetadataStore) (cfg : FeedConfig) (now : Nat) :
    MetadataStore × Except Err Feed :=
  if st.feeds.any (fun f => f.slug == cfg.slug) then
    (st, Except.error Err.duplicateSlug)
  else
    let f : Feed :=
      { id := st.next_feed_id
        slug := cfg.slug
        title := cfg.title
        description := cfg.description
        author := cfg.author
        email := cfg.email
        language := cfg.language
        categories := cfg.categories
        image_url := cfg.image_url
        website_url := cfg.website_url
        created_at := now }
    ({ st with
        feeds := st.feeds ++ [f]
        next_feed_id := st.next_feed_id + 1 },
      Except.ok f)

/-- Modelled from the spec: the replacement of an existing row's mutable
fields by `upsert_episode` (§4.1), preserving `id`, `feed_id` and `guid`. -/
def applyData (old : Episode) (d : EpisodeData) : Episode :=
  { old with
    title := d.title
    description := d.description
    audio_url := d.audio_url
    audio_length_bytes := d.audio_length_bytes
    duration_seconds := d.duration_seconds
    mime_type := d.mime_type
    episode_number := d.episode_number
    season_number := d.season_number
    published_at := d.published_at }

/-- Modelled from the spec: `upsert_episode(feed_id, episode)` of §4.1 —
inserts a new Episode, or replaces the mutable fields of the row with the same
`guid` under the same `feed_id` while preserving `id`. -/
def MetadataStore.upsertEpisode (st : MetadataStore) (fid : Nat) (d : EpisodeData) :
    MetadataStore :=
  if st.episodes.any (fun e => e.feed_id == fid && e.guid == d.guid) then
    { st with episodes := st.episodes.map (fun e =>
        if e.feed_id == fid && e.guid == d.guid then applyData e d else e) }
  else
    { st with
      episodes := st.episodes ++
        [{ id := st.next_episode_id
           feed_id := fid
           guid := d.guid
           title := d.title
           description := d.description
           audio_url := d.audio_url
           audio_length_bytes := d.audio_length_bytes
           duration_seconds := d.duration_seconds
           mime_type := d.mime_type
           episode_number := d.episode_number
           season_number := d.season_number
           published_at := d.published_at }]
      next_episode_id := st.next_episode_id + 1 }

/-- Number of Episode rows of a feed carrying a given guid. -/
def MetadataStore.guidCount (st : MetadataStore) (fid : Nat) (guid : String) : Nat :=
  (st.episodes.filter (fun e => e.feed_id == fid && e.guid == guid)).length

/-- Modelled from the spec: the content hash used for guid derivation when
numbering is absent (§4.4 step 2); modelled as a deterministic digest of the
audio bytes. -/
def contentHash (c : String) : String :=
  toString c.length ++ "x" ++ toString (c.foldl (fun a ch => a + ch.toNat) 0)

/-- Modelled from the spec: deterministic guid derivation of §4.4 step 2 —
from feed slug plus season/episode numbers, or from the content hash when
numbering is absent (numbering-based guid preferred when both are present,
§9). -/
def guidFor (slug : String) (meta : PodcastMetadata) (content : String) : String :=
  match meta.season_number, meta.episode_number with
  | some sn, some en => slug ++ "-s" ++ toString sn ++ "e" ++ toString en
  | _, _ => "sha-" ++ contentHash content

/-- Numbering key of an episode for the canonical order of §3: the pair
(season_number, episode_number), with an absent number ranking below every
present (positive) number. -/
def numKey (e : Episode) : Nat × Nat :=
  (e.season_number.getD 0, e.episode_number.getD 0)

/-- Lexicographic strict order on numbering keys. -/
def pairLT (p q : Nat × Nat) : Prop :=
  p.1 < q.1 ∨ (p.1 = q.1 ∧ p.2 < q.2)

/-- Modelled from the spec: the canonical rendering order of §3 —
`canonicalBefore a b` holds when `a` may appear at or before `b`:
`published_at` descending, ties broken by (season_number, episode_number)
descending, remaining ties by `guid` ascending. -/
def canonicalBefore (a b : Episode) : Prop :=
  b.published_at < a.published_at ∨
    (a.published_at = b.published_at ∧
      (pairLT (numKey b) (numKey a) ∨
        (numKey a = numKey b ∧ a.guid ≤ b.guid)))

instance : DecidableRel canonicalBefore := fun a b => by
  unfold canonicalBefore pairLT
  infer_instance

theorem pairLT_trans {p q r : Nat × Nat} (h1 : pairLT p q) (h2 : pairLT q r) :
    pairLT p r := by
  rcases h1 with h1 | ⟨h1a, h1b⟩ <;> rcases h2 with h2 | ⟨h2a, h2b⟩ <;>
    unfold pairLT <;> omega

theorem pair_tri (p q : Nat × Nat) : pairLT p q ∨ p = q ∨ pairLT q p := by
  rcases p with ⟨a, b⟩
  rcases q with ⟨c, d⟩
  unfold pairLT
  simp only [Prod.mk.injEq]
  omega

instance : IsTrans Episode canonicalBefore := by
  constructor
  intro a b c hab hbc
  rcases hab with hab | ⟨hab, habx⟩
  · rcases hbc with hbc | ⟨hbc, _⟩
    · exact Or.inl (Nat.lt_trans hbc hab)
    · exact Or.inl (hbc ▸ hab)
  · rcases hbc with hbc | ⟨hbc, hbcx⟩
    · exact Or.inl (by omega)
    · refine Or.inr ⟨hab.trans hbc, ?_⟩
      rcases habx with habx | ⟨habe, habg⟩
      · rcases hbcx with hbcx | ⟨hbce, _⟩
        · exact Or.inl (pairLT_trans hbcx habx)
        · exact Or.inl (hbce ▸ habx)
      · rcases hbcx with hbcx | ⟨hbce, hbcg⟩
        · exact Or.inl (habe ▸ hbcx)
        · exact Or.inr ⟨habe.trans hbce, le_trans habg hbcg⟩

instance : IsTotal Episode canonicalBefore := by
  constructor
  intro a b
  rcases Nat.lt_trichotomy a.published_at b.published_at with h | h | h
  · exact Or.inr (Or.inl h)
  · rcases pair_tri (numKey a) (numKey b) with hp | hp | hp
    · exact Or.inr (Or.inr ⟨h.symm, Or.inl hp⟩)
    · rcases le_total a.guid b.guid with hg | hg
      · exact Or.inl (Or.inr ⟨h, Or.inr ⟨hp, hg⟩⟩)
      · exact Or.inr (Or.inr ⟨h.symm, Or.inr ⟨hp.symm, hg⟩⟩)
    · exact Or.inl (Or.inr ⟨h, Or.inl hp⟩)
  · exact Or.inl (Or.inl h)

/-- Modelled from the spec: `list_episodes(feed_id)` of §4.1 — all episodes of
the feed in the canonical order of §3. -/
def MetadataStore.listEpisodes (st : MetadataStore) (fid : Nat) : List Episode :=
  List.insertionSort canonicalBefore (st.episodes.filter (fun e => e.feed_id == fid))

/-- Structural tags of the serialized feed document. -/
inductive Tag
  | channel
  | endchannel
  | item
  | season
  | episode
  | enditem
deriving DecidableEq

/-- Modelled from the spec: one serialized unit of the feed document bytes
(§4.3 allows an equivalent structured serialization of the XML document). -/
inductive Token
  | s (v : String)
  | n (v : Nat)
  | tag (t : Tag)
deriving DecidableEq

/-- Modelled from the spec: the channel-level record of §4.3 — title,
description, author, email, language, categories, optional image and website,
and the self-referencing feed URL. -/
def renderChannel (f : Feed) (feedUrl : String) : List Token :=
  [Token.tag Tag.channel, Token.s f.title, Token.s f.description,
   Token.s f.author, Token.s f.email, Token.s f.language]
  ++ f.categories.map Token.s
  ++ (match f.image_url with | some u => [Token.s u] | none => [])
  ++ (match f.website_url with | some u => [Token.s u] | none => [])
  ++ [Token.s feedUrl, Token.tag Tag.endchannel]

/-- Modelled from the spec: one item of §4.3 — title, description, unique item
identifier equal to `guid`, an enclosure (audio URL, declared length, type),
publication timestamp, and the optional season/episode numbering fields
included only when present on the Episode. -/
def renderItem (e : Episode) : List Token :=
  [Token.tag Tag.item, Token.s e.title, Token.s e.description, Token.s e.guid,
   Token.s e.audio_url, Token.n e.audio_length_bytes, Token.s e.mime_type,
   Token.n e.published_at]
  ++ (match e.season_number with
      | some v => [Token.tag Tag.season, Token.n v]
      | none => [])
  ++ (match e.episode_number with
      | some v => [Token.tag Tag.episode, Token.n v]
      | none => [])
  ++ [Token.tag Tag.enditem]

def renderItems : List Episode → List Token
  | [] => []
  | e :: rest => renderItem e ++ renderItems rest

/-- Modelled from the spec: the FeedBuilder of §4.3 — the pure transformation
from a Feed, its self URL and its ordered episodes to the document bytes. -/
def buildFeed (f : Feed) (feedUrl : String) (es : List Episode) : List Token :=
  renderChannel f feedUrl ++ renderItems es

/-- One structured item recovered by parsing a feed document. -/
structure FeedItem where
  title : String
  description : String
  guid : String
  enclosure_url : String
  enclosure_length : Nat
  enclosure_type : String
  published_at : Nat
  season_number : Option Nat
  episode_number : Option Nat
deriving DecidableEq

/-- Item a given episode is expected to parse back to. -/
def itemOfEpisode (e : Episode) : FeedItem :=
  { title := e.title
    description := e.description
    guid := e.guid
    enclosure_url := e.audio_url
    enclosure_length := e.audio_length_bytes
    enclosure_type := e.mime_type
    published_at := e.published_at
    season_number := e.season_number
    episode_number := e.episode_number }

/-- Parser for the item list of a serialized feed document. -/
def parseItems : List Token → Option (List FeedItem)
  | [] => some []
  | Token.tag Tag.item :: Token.s t :: Token.s d :: Token.s g :: Token.s u ::
      Token.n len :: Token.s mt :: Token.n pub :: rest =>
    match rest with
    | Token.tag Tag.season :: Token.n sv :: Token.tag Tag.episode :: Token.n ev ::
        Token.tag Tag.enditem :: rest2 =>
      (parseItems rest2).map (fun its => ⟨t, d, g, u, len, mt, pub, some sv, some ev⟩ :: its)
    | Token.tag Tag.season :: Token.n sv :: Token.tag Tag.enditem :: rest2 =>
      (parseItems rest2).map (fun its => ⟨t, d, g, u, len, mt, pub, some sv, none⟩ :: its)
    | Token.tag Tag.episode :: Token.n ev :: Token.tag Tag.enditem :: rest2 =>
      (parseItems rest2).map (fun its => ⟨t, d, g, u, len, mt, pub, none, some ev⟩ :: its)
    | Token.tag Tag.enditem :: rest2 =>
      (parseItems rest2).map (fun its => ⟨t, d, g, u, len, mt, pub, none, none⟩ :: its)
    | _ => none
  | _ => none

/-- Skips the channel-level record up to and including the end-of-channel
marker. -/
def skipChannel : List Token → Option (List Token)
  | Token.tag Tag.endchannel :: rest => some rest
  | _ :: rest => skipChannel rest
  | [] => none

/-- Parser for a whole serialized feed document: skip the channel record, then
parse the items. -/
def parseFeed (toks : List Token) : Option (List FeedItem) :=
  match skipChannel toks with
  | some rest => parseItems rest
  | none => none

/-- Content stored at one key of the object store: an uploaded audio artifact
or a serialized feed document. -/
inductive Blob
  | audio (content : String)
  | doc (toks : List Token)
deriving DecidableEq

/-- Modelled from the spec: the full state the PublishingEngine acts on — the
configured public base URL, the metadata store, the object store contents, and
a logical clock supplying timestamps. -/
structure PodState where
  base_url : String
  store : MetadataStore
  objects : List (String × Blob)
  now : Nat
deriving DecidableEq

def initState (base : String) : PodState :=
  { base_url := base
    store := emptyStore
    objects := []
    now := 0 }

/-- Modelled from the spec: `public_url(key)` of §4.2 — deterministic
construction from the configured base, pure, no network call. -/
def publicURL (base key : String) : String := base ++ "/" ++ key

/-- Modelled from the spec: `put(key, bytes, content_type)` of §4.2 —
idempotent upload: the same key is overwritten rather than duplicated. -/
def putObject (s : PodState) (key : String) (b : Blob) : PodState :=
  { s with objects := (key, b) :: s.objects.filter (fun kv => !(kv.1 == key)) }

/-- Lookup of the object stored at a key. -/
def getObject (s : PodState) (key : String) : Option Blob :=
  (s.objects.find? (fun kv => kv.1 == key)).map Prod.snd

/-- Failure injected into one call of a publishing operation: no failure, an
object-store failure while uploading the audio artifact (before §4.4 step 4),
a metadata-store failure after the upload (between steps 3 and 4), or an
object-store failure while uploading the rebuilt document (step 7). -/
inductive FailPoint
  | nofail
  | audioUpload
  | metadataCommit
  | docUpload
deriving DecidableEq

/-- Storage key of the feed document of a feed: `{feed_slug}/feed.xml`
(§4.2). -/
def feedKey (slug : String) : String := slug ++ "/feed.xml"

/-- Storage key of an audio artifact: `{feed_slug}/episodes/{guid}.{ext}`
(§4.2). -/
def audioKey (slug guid ext : String) : String :=
  slug ++ "/episodes/" ++ guid ++ "." ++ ext

/-- Modelled from the spec: `create_feed` of the PublishingEngine (§4.4) —
insert the Feed row, build the empty feed document, upload it, and return the
public feed URL; a document-upload failure after a successful metadata commit
keeps the Feed row and surfaces `FeedPublishFailure`. -/
def PodState.createFeed (s : PodState) (cfg : FeedConfig) (fp : FailPoint) :
    PodState × Except Err String :=
  if fp = FailPoint.metadataCommit then
    (s, Except.error Err.metadataWriteFailure)
  else
    match s.store.createFeed cfg s.now with
    | (_, Except.error e) => (s, Except.error e)
    | (st1, Except.ok f) =>
      let url := publicURL s.base_url (feedKey cfg.slug)
      let s1 : PodState := { s with store := st1, now := s.now + 1 }
      if fp = FailPoint.docUpload then
        (s1, Except.error Err.feedPublishFailure)
      else
        (putObject s1 (feedKey cfg.slug) (Blob.doc (buildFeed f url [])), Except.ok url)

/-- Episode fields committed by one `add_episode` call: the guid of §4.4
step 2, the public URL and byte size of the uploaded artifact, and the current
clock as `published_at`. -/
def pendingData (s : PodState) (slug : String) (art : AudioArtifact)
    (meta : PodcastMetadata) : EpisodeData :=
  { guid := guidFor slug meta art.content
    title := meta.title
    description := meta.description
    audio_url := publicURL s.base_url (audioKey slug (guidFor slug meta art.content) art.ext)
    audio_length_bytes := art.content.length
    duration_seconds := art.duration_seconds
    mime_type := art.mime_type
    episode_number := meta.episode_number
    season_number := meta.season_number
    published_at := s.now }

/-- Modelled from the spec: `add_episode` of the PublishingEngine — the eight
steps of §4.4: look up the feed, compute the guid, upload the audio artifact,
upsert the Episode row, list the episodes, rebuild the document, upload it,
and return the feed and episode URLs. Uploads happen before metadata commits;
an audio-upload failure aborts before any metadata mutation; a metadata
failure after a successful upload surfaces `InconsistentStateError`. -/
def PodState.addEpisode (s : PodState) (slug : String) (art : AudioArtifact)
    (meta : PodcastMetadata) (fp : FailPoint) :
    PodState × Except Err (String × String) :=
  match s.store.getFeed slug with
  | none => (s, Except.error Err.notFound)
  | some f =>
    let akey := audioKey slug (guidFor slug meta art.content) art.ext
    if fp = FailPoint.audioUpload then
      (s, Except.error Err.uploadFailure)
    else
      let s1 := putObject s akey (Blob.audio art.content)
      if fp = FailPoint.metadataCommit then
        (s1, Except.error Err.inconsistentState)
      else
        let s2 : PodState :=
          { s1 with store := s1.store.upsertEpisode f.id (pendingData s slug art meta) }
        let eps := s2.store.listEpisodes f.id
        let furl := publicURL s.base_url (feedKey slug)
        if fp = FailPoint.docUpload then
          ({ s2 with now := s.now + 1 }, Except.error Err.feedPublishFailure)
        else
          let s3 := putObject s2 (feedKey slug) (Blob.doc (buildFeed f furl eps))
          ({ s3 with now := s.now + 1 },
            Except.ok (furl, publicURL s.base_url akey))

/-- The calling convention of `publish.ipynb`: the feed is identified by a
`name` argument and the categories are passed as one comma-separated string;
the publisher splits them and builds the feed configuration of §6. -/
def PodcastPublisher.create_feed (s : PodState) (name title description author
    email language categories : String) : PodState × Except Err String :=
  s.createFeed
    { slug := name
      title := title
      description := description
      author := author
      email := email
      language := language
      categories := categories.splitOn ","
      image_url := none
      website_url := none }
    FailPoint.nofail

/-- The calling convention of `publish.ipynb` for adding an episode: the feed
is identified by a `feed_name` argument. -/
def PodcastPublisher.add_episode (s : PodState) (feed_name : String)
    (art : AudioArtifact) (meta : PodcastMetadata) :
    PodState × Except Err (String × String) :=
  s.addEpisode feed_name art meta FailPoint.nofail

/-- One invocation of a public operation of the engine, with its injected
failure point. -/
inductive EngineOp
  | createFeed (cfg : FeedConfig) (fp : FailPoint)
  | addEpisode (slug : String) (art : AudioArtifact) (meta : PodcastMetadata)
      (fp : FailPoint)

/-- State reached after one operation (the returned value is discarded). -/
def applyOp (s : PodState) : EngineOp → PodState
  | EngineOp.createFeed cfg fp => (s.createFeed cfg fp).1
  | EngineOp.addEpisode slug art meta fp => (s.addEpisode slug art meta fp).1

/-- An operation with no failure injected between the upload step (step 3)
and the metadata-commit step (step 4) of `add_episode`. -/
def opSafe : EngineOp → Prop
  | EngineOp.createFeed _ _ => True
  | EngineOp.addEpisode _ _ _ fp => fp ≠ FailPoint.metadataCommit

/-- States reachable from an initial state by operations none of which
injects a failure between steps 3 and 4 of `add_episode`. -/
inductive ReachableSafe : PodState → Prop
  | init (base : String) : ReachableSafe (initState base)
  | step (s : PodState) (op : EngineOp) (hs : ReachableSafe s) (hop : opSafe op) :
      ReachableSafe (applyOp s op)

/-- Consistency invariant of §8: every Episode row's `audio_url` refers to an
object present in storage. -/
def consistent (s : PodState) : Prop :=
  ∀ e ∈ s.store.episodes, ∃ kv ∈ s.objects, e.audio_url = publicURL s.base_url kv.1

/-- Number of items of the feed document currently stored for a feed slug. -/
def docItemCount (s : PodState) (slug : String) : Option Nat :=
  match getObject s (feedKey slug) with
  | some (Blob.doc toks) => (parseFeed toks).map List.length
  | _ => none

theorem parseItems_renderItems (es : List Episode) :
    parseItems (renderItems es) = some (es.map itemOfEpisode) := by
  induction es with
  | nil => rfl
  | cons e rest ih =>
    rcases hs : e.season_number with _ | sv <;>
      rcases he : e.episode_number with _ | ev <;>
      simp [renderItems, renderItem, hs, he, parseItems, ih, itemOfEpisode]

theorem skipChannel_cons_ne (x : Token) (l : List Token)
    (h : x ≠ Token.tag Tag.endchannel) :
    skipChannel (x :: l) = skipChannel l := by
  rcases x with v | v | t
  · rfl
  · rfl
  · rcases t <;> first | rfl | exact absurd rfl h

theorem skipChannel_append (xs rest : List Token)
    (h : ∀ x ∈ xs, x ≠ Token.tag Tag.endchannel) :
    skipChannel (xs ++ Token.tag Tag.endchannel :: rest) = some rest := by
  induction xs with
  | nil => rfl
  | cons x xs ih =>
    rw [List.cons_append, skipChannel_cons_ne x _ (h x (List.mem_cons_self x xs))]
    exact ih (fun y hy => h y (List.mem_cons_of_mem x hy))

theorem skipChannel_renderChannel (f : Feed) (url : String) (rest : List Token) :
    skipChannel (renderChannel f url ++ rest) = some rest := by
  have h :
      renderChannel f url ++ rest =
        ([Token.tag Tag.channel, Token.s f.title, Token.s f.description,
          Token.s f.author, Token.s f.email, Token.s f.language]
          ++ f.categories.map Token.s
          ++ (match f.image_url with | some u => [Token.s u] | none => [])
          ++ (match f.website_url with | some u => [Token.s u] | none => [])
          ++ [Token.s url]) ++ Token.tag Tag.endchannel :: rest := by
    simp [renderChannel]
  rw [h]
  apply skipChannel_append
  intro x hx heq
  subst heq
  rcases hi : f.image_url with _ | u <;> rcases hw : f.website_url with _ | w <;>
    rw [hi, hw] at hx <;> simp at hx

theorem parseFeed_buildFeed (f : Feed) (url : String) (es : List Episode) :
    parseFeed (buildFeed f url es) = some (es.map itemOfEpisode) := by
  rw [buildFeed, parseFeed, skipChannel_renderChannel]
  exact parseItems_renderItems es

theorem getObject_putObject_self (s : PodState) (k : String) (b : Blob) :
    getObject (putObject s k b) k = some b := by
  simp [getObject, putObject, List.find?]

theorem upsert_feeds (st : MetadataStore) (fid : Nat) (d : EpisodeData) :
    (st.upsertEpisode fid d).feeds = st.feeds := by
  unfold MetadataStore.upsertEpisode
  split <;> rfl

theorem getFeed_upsert (st : MetadataStore) (fid : Nat) (d : EpisodeData)
    (slug : String) :
    (st.upsertEpisode fid d).getFeed slug = st.getFeed slug := by
  simp [MetadataStore.getFeed, upsert_feeds]

theorem applyData_pred (e : Episode) (d : EpisodeData) (fid : Nat) (g : String) :
    ((applyData e d).feed_id == fid && (applyData e d).guid == g) =
      (e.feed_id == fid && e.guid == g) := rfl

theorem guidCount_upsert (st : MetadataStore) (fid : Nat) (d : EpisodeData) :
    (st.upsertEpisode fid d).guidCount fid d.guid =
      if st.guidCount fid d.guid = 0 then 1 else st.guidCount fid d.guid := by
  unfold MetadataStore.upsertEpisode
  split
  case isTrue h =>
    have hpos : 0 < st.guidCount fid d.guid := by
      rcases List.any_eq_true.1 h with ⟨e, he, hpe⟩
      unfold MetadataStore.guidCount
      rw [← List.countP_eq_length_filter]
      exact List.countP_pos.2 ⟨e, he, hpe⟩
    rw [if_neg (by omega)]
    unfold MetadataStore.guidCount
    rw [← List.countP_eq_length_filter, ← List.countP_eq_length_filter]
    simp only [List.countP_map]
    apply List.countP_congr
    intro e _
    by_cases hpe : (e.feed_id == fid && e.guid == d.guid) = true
    · simp [Function.comp, hpe, applyData_pred]
    · simp [Function.comp, hpe]
  case isFalse h =>
    have hzero : st.guidCount fid d.guid = 0 := by
      unfold MetadataStore.guidCount
      rw [← List.countP_eq_length_filter]
      by_contra hne
      have hpos : 0 < st.episodes.countP (fun e => e.feed_id == fid && e.guid == d.guid) := by
        omega
      rcases List.countP_pos.1 hpos with ⟨e, he, hpe⟩
      exact h (List.any_eq_true.2 ⟨e, he, hpe⟩)
    rw [if_pos hzero]
    unfold MetadataStore.guidCount at hzero ⊢
    rw [← List.countP_eq_length_filter] at hzero ⊢
    simp [List.countP_append, hzero, List.countP_cons]

theorem feedFilter_upsert (st : MetadataStore) (fid : Nat) (d : EpisodeData) :
    ((st.upsertEpisode fid d).episodes.filter (fun e => e.feed_id == fid)).length =
      if st.guidCount fid d.guid = 0 then
        (st.episodes.filter (fun e => e.feed_id == fid)).length + 1
      else
        (st.episodes.filter (fun e => e.feed_id == fid)).length := by
  unfold MetadataStore.upsertEpisode
  split
  case isTrue h =>
    have hpos : 0 < st.guidCount fid d.guid := by
      rcases List.any_eq_true.1 h with ⟨e, he, hpe⟩
      unfold MetadataStore.guidCount
      rw [← List.countP_eq_length_filter]
      exact List.countP_pos.2 ⟨e, he, hpe⟩
    rw [if_neg (by omega)]
    rw [← List.countP_eq_length_filter, ← List.countP_eq_length_filter]
    simp only [List.countP_map]
    apply List.countP_congr
    intro e _
    by_cases hpe : (e.feed_id == fid && e.guid == d.guid) = true
    · have : (applyData e d).feed_id = e.feed_id := rfl
      simp [Function.comp, hpe, this]
    · simp [Function.comp, hpe]
  case isFalse h =>
    have hzero : st.guidCount fid d.guid = 0 := by
      unfold MetadataStore.guidCount
      rw [← List.countP_eq_length_filter]
      by_contra hne
      have hpos : 0 < st.episodes.countP (fun e => e.feed_id == fid && e.guid == d.guid) := by
        omega
      rcases List.countP_pos.1 hpos with ⟨e, he, hpe⟩
      exact h (List.any_eq_true.2 ⟨e, he, hpe⟩)
    rw [if_pos hzero]
    rw [← List.countP_eq_length_filter, ← List.countP_eq_length_filter]
    simp [List.countP_append, List.countP_cons]

theorem listEpisodes_length (st : MetadataStore) (fid : Nat) :
    (st.listEpisodes fid).length =
      (st.episodes.filter (fun e => e.feed_id == fid)).length :=
  (List.perm_insertionSort canonicalBefore _).length_eq

theorem addEpisode_nofail_eq (s : PodState) (slug : String) (art : AudioArtifact)
    (meta : PodcastMetadata) (f : Feed) (hf : s.store.getFeed slug = some f) :
    s.addEpisode slug art meta FailPoint.nofail =
      (let akey := audioKey slug (guidFor slug meta art.content) art.ext
       let s1 := putObject s akey (Blob.audio art.content)
       let s2 : PodState :=
         { s1 with store := s1.store.upsertEpisode f.id (pendingData s slug art meta) }
       let furl := publicURL s.base_url (feedKey slug)
       let s3 := putObject s2 (feedKey slug)
         (Blob.doc (buildFeed f furl (s2.store.listEpisodes f.id)))
       ({ s3 with now := s.now + 1 },
         Except.ok (furl, publicURL s.base_url akey))) := by
  simp [PodState.addEpisode, hf]

theorem createFeedRow_episodes (st : MetadataStore) (cfg : FeedConfig) (now : Nat) :
    (st.createFeed cfg now).1.episodes = st.episodes := by
  unfold MetadataStore.createFeed
  split <;> rfl

theorem consistent_putObject (s : PodState) (k : String) (b : Blob)
    (h : consistent s) : consistent (putObject s k b) := by
  intro e he
  rcases h e he with ⟨kv, hkv, heq⟩
  by_cases hk : kv.1 = k
  · exact ⟨(k, b), List.mem_cons_self _ _, by simp [putObject, heq, hk]⟩
  · refine ⟨kv, List.mem_cons_of_mem _ ?_, heq⟩
    exact List.mem_filter.2 ⟨hkv, by simp [hk]⟩

theorem mem_upsert_episodes (st : MetadataStore) (fid : Nat) (d : EpisodeData)
    (e : Episode) (he : e ∈ (st.upsertEpisode fid d).episodes) :
    e ∈ st.episodes ∨ e.audio_url = d.audio_url := by
  unfold MetadataStore.upsertEpisode at he
  split at he
  · rcases List.mem_map.1 he with ⟨a, ha, hae⟩
    by_cases hp : (a.feed_id == fid && a.guid == d.guid) = true
    · rw [if_pos hp] at hae
      right
      rw [← hae]
      rfl
    · rw [if_neg hp] at hae
      left
      rw [← hae]
      exact ha
  · rcases List.mem_append.1 he with ha | ha
    · exact Or.inl ha
    · right
      rcases List.mem_singleton.1 ha with rfl
      rfl

theorem consistent_createFeed (s : PodState) (cfg : FeedConfig) (fp : FailPoint)
    (h : consistent s) : consistent (s.createFeed cfg fp).1 := by
  unfold PodState.createFeed
  split
  · exact h
  · rcases hm : s.store.createFeed cfg s.now with ⟨st1, r⟩
    have heps : st1.episodes = s.store.episodes := by
      have := createFeedRow_episodes s.store cfg s.now
      rw [hm] at this
      exact this
    rcases r with e | f
    · simpa [hm] using h
    · simp only [hm]
      split
      · intro e he
        simp only [heps] at he
        rcases h e he with ⟨kv, hkv, heq⟩
        exact ⟨kv, hkv, heq⟩
      · apply consistent_putObject
        intro e he
        simp only [heps] at he
        rcases h e he with ⟨kv, hkv, heq⟩
        exact ⟨kv, hkv, heq⟩

theorem consistent_addEpisode (s : PodState) (slug : String) (art : AudioArtifact)
    (meta : PodcastMetadata) (fp : FailPoint) (h : consistent s) :
    consistent (s.addEpisode slug art meta fp).1 := by
  unfold PodState.addEpisode
  rcases hm : s.store.getFeed slug with _ | f
  · exact h
  · simp only
    split
    · exact h
    · have h1 : consistent (putObject s
          (audioKey slug (guidFor slug meta art.content) art.ext)
          (Blob.audio art.content)) := consistent_putObject _ _ _ h
      split
      · exact h1
      · have h2 : consistent
            { putObject s (audioKey slug (guidFor slug meta art.content) art.ext)
                (Blob.audio art.content) with
              store := (putObject s (audioKey slug (guidFor slug meta art.content) art.ext)
                  (Blob.audio art.content)).store.upsertEpisode f.id
                  (pendingData s slug art meta) } := by
          intro e he
          simp only at he
          rcases mem_upsert_episodes _ _ _ _ he with ha | ha
          · rcases h1 e ha with ⟨kv, hkv, heq⟩
            exact ⟨kv, hkv, heq⟩
          · refine ⟨(audioKey slug (guidFor slug meta art.content) art.ext,
              Blob.audio art.content), List.mem_cons_self _ _, ?_⟩
            rw [ha]
            rfl
        split
        · intro e he
          rcases h2 e he with ⟨kv, hkv, heq⟩
          exact ⟨kv, hkv, heq⟩
        · intro e he
          have h3 := consistent_putObject _ (feedKey slug)
            (Blob.doc (buildFeed f (publicURL s.base_url (feedKey slug))
              (((putObject s (audioKey slug (guidFor slug meta art.content) art.ext)
                  (Blob.audio art.content)).store.upsertEpisode f.id
                  (pendingData s slug art meta)).listEpisodes f.id))) h2
          rcases h3 e he with ⟨kv, hkv, heq⟩
          exact ⟨kv, hkv, heq⟩

/-- Feed configuration of the concrete scenario of §8. -/
def exCfg : FeedConfig :=
  { slug := "tech-talk"
    title := "Tech Talk Podcast"
    description := "A podcast about technology"
    author := "D"
    email := "d@x.com"
    language := "en"
    categories := ["Technology", "News"]
    image_url := none
    website_url := none }

/-- Audio artifact of the concrete scenario. -/
def exArt : AudioArtifact :=
  { content := "abc"
    ext := "mp3"
    mime_type := "audio/mpeg"
    duration_seconds := 10 }

/-- Episode metadata of the concrete scenario. -/
def exMeta : PodcastMetadata :=
  { title := "Prioritizing Energy"
    description := "d"
    episode_number := some 1
    season_number := some 1 }

def exState0 : PodState := initState "https://pub-host"

def exState1 : PodState := (exState0.createFeed exCfg FailPoint.nofail).1

/-- Feed row created by the scenario's `create_feed` call. -/
def exFeed : Feed :=
  { id := 1
    slug := "tech-talk"
    title := "Tech Talk Podcast"
    description := "A podcast about technology"
    author := "D"
    email := "d@x.com"
    language := "en"
    categories := ["Technology", "News"]
    image_url := none
    website_url := none
    created_at := 0 }

/-- C2: in every state reachable by operations that inject no failure between
the upload step (step 3) and the metadata-commit step (step 4) of
`add_episode`, no Episode row exists whose `audio_url` refers to an object
absent from storage: the audio upload completes before the episode metadata
is committed. -/
theorem reachable_states_consistent (s : PodState) (h : ReachableSafe s) :
    consistent s := by
  induction h with
  | init base =>
    intro e he
    simp [initState, emptyStore] at he
  | step s op hs hop ih =>
    cases op with
    | createFeed cfg fp => exact consistent_createFeed s cfg fp ih
    | addEpisode slug art meta fp => exact consistent_addEpisode s slug art meta fp ih

def exOp1 : EngineOp := EngineOp.createFeed exCfg FailPoint.nofail

def exOp2 : EngineOp := EngineOp.addEpisode "tech-talk" exArt exMeta FailPoint.nofail

def exState2 : PodState := applyOp (applyOp exState0 exOp1) exOp2

theorem reachable_states_consistent_witness : consistent exState2 :=
  reachable_states_consistent exState2
    (ReachableSafe.step _ exOp2
      (ReachableSafe.step _ exOp1 (ReachableSafe.init "https://pub-host")
        (by simp [exOp1, opSafe]))
      (by simp [exOp2, opSafe]))

/-- C3: for every call of `add_episode` in which the object-store upload of
the audio artifact fails with `UploadFailure`, the metadata store (indeed the
whole state) is left exactly as it was before the call: no Episode row is
created and no existing row is modified. -/
theorem add_episode_upload_failure_aborts (s : PodState) (slug : String)
    (art : AudioArtifact) (meta : PodcastMetadata) (f : Feed)
    (hf : s.store.getFeed slug = some f) :
    s.addEpisode slug art meta FailPoint.audioUpload =
      (s, Except.error Err.uploadFailure) := by
  simp [PodState.addEpisode, hf]

theorem add_episode_upload_failure_aborts_witness :
    exState1.addEpisode "tech-talk" exArt exMeta FailPoint.audioUpload =
      (exState1, Except.error Err.uploadFailure) :=
  add_episode_upload_failure_aborts exState1 "tech-talk" exArt exMeta exFeed rfl

/-- C4: `create_feed` with a slug that already exists in the store fails with
`DuplicateSlugError` and leaves the store unchanged; with a slug not in the
store it inserts and returns the new Feed with an assigned `id` and
`created_at`. -/
theorem create_feed_slug_uniqueness (st : MetadataStore) (cfg : FeedConfig)
    (now : Nat) :
    ((∃ f ∈ st.feeds, f.slug = cfg.slug) →
      st.createFeed cfg now = (st, Except.error Err.duplicateSlug)) ∧
    ((∀ f ∈ st.feeds, f.slug ≠ cfg.slug) →
      ∃ fd : Feed,
        st.createFeed cfg now =
          ({ st with
              feeds := st.feeds ++ [fd]
              next_feed_id := st.next_feed_id + 1 },
            Except.ok fd) ∧
        fd.id = st.next_feed_id ∧ fd.created_at = now ∧ fd.slug = cfg.slug) := by
  constructor
  · rintro ⟨f, hf, hs⟩
    have ha : st.feeds.any (fun f => f.slug == cfg.slug) = true :=
      List.any_eq_true.2 ⟨f, hf, by simp [hs]⟩
    simp [MetadataStore.createFeed, ha]
  · intro hn
    have ha : st.feeds.any (fun f => f.slug == cfg.slug) = false := by
      rw [List.any_eq_false]
      intro f hf
      simp [hn f hf]
    refine ⟨{ id := st.next_feed_id
              slug := cfg.slug
              title := cfg.title
              description := cfg.description
              author := cfg.author
              email := cfg.email
              language := cfg.language
              categories := cfg.categories
              image_url := cfg.image_url
              website_url := cfg.website_url
              created_at := now }, ?_, rfl, rfl, rfl⟩
    simp [MetadataStore.createFeed, ha]

theorem create_feed_slug_uniqueness_witness :
    exState1.store.createFeed exCfg 5 =
      (exState1.store, Except.error Err.duplicateSlug) ∧
    ∃ fd : Feed,
      emptyStore.createFeed exCfg 0 =
        ({ emptyStore with
            feeds := emptyStore.feeds ++ [fd]
            next_feed_id := emptyStore.next_feed_id + 1 },
          Except.ok fd) ∧
      fd.id = emptyStore.next_feed_id ∧ fd.created_at = 0 ∧ fd.slug = exCfg.slug :=
  ⟨(create_feed_slug_uniqueness exState1.store exCfg 5).1
      ⟨exFeed, by decide, by decide⟩,
    (create_feed_slug_uniqueness emptyStore exCfg 0).2
      (by simp [emptyStore])⟩

/-- C7: the guid is a deterministic function of its inputs — with both
numbers present it is derived from feed slug plus season/episode numbers
(independent of the content), with the numbers absent it is derived from the
content hash; two calls with the same slug and numbering compute the same
guid. -/
theorem guid_derivation_deterministic :
    (∀ (slug : String) (meta : PodcastMetadata) (c1 c2 : String) (sn en : Nat),
      meta.season_number = some sn → meta.episode_number = some en →
      guidFor slug meta c1 = guidFor slug meta c2 ∧
      guidFor slug meta c1 = slug ++ "-s" ++ toString sn ++ "e" ++ toString en) ∧
    (∀ (slug : String) (meta : PodcastMetadata) (c : String),
      meta.season_number = none → meta.episode_number = none →
      guidFor slug meta c = "sha-" ++ contentHash c) := by
  constructor
  · intro slug meta c1 c2 sn en hs he
    unfold guidFor
    rw [hs, he]
    exact ⟨rfl, rfl⟩
  · intro slug meta c hs he
    unfold guidFor
    rw [hs, he]

theorem guid_derivation_deterministic_witness :
    (guidFor "tech-talk" exMeta "abc" = guidFor "tech-talk" exMeta "xyz" ∧
      guidFor "tech-talk" exMeta "abc" = "tech-talk" ++ "-s" ++ toString 1 ++ "e" ++ toString 1) ∧
    guidFor "tech-talk" ⟨"t", "d", none, none⟩ "abc" = "sha-" ++ contentHash "abc" :=
  ⟨guid_derivation_deterministic.1 "tech-talk" exMeta "abc" "xyz" 1 1 rfl rfl,
    guid_derivation_deterministic.2 "tech-talk" ⟨"t", "d", none, none⟩ "abc" rfl rfl⟩

/-- Concrete episode row used in witnesses. -/
def exEp : Episode :=
  { id := 1
    feed_id := 1
    guid := "tech-talk-s1e1"
    title := "Prioritizing Energy"
    description := "d"
    audio_url := "https://pub-host/tech-talk/episodes/tech-talk-s1e1.mp3"
    audio_length_bytes := 3
    duration_seconds := 10
    mime_type := "audio/mpeg"
    episode_number := some 1
    season_number := some 1
    published_at := 7 }

/-- Order the rendered item sequence is claimed to satisfy: `published_at`
non-increasing; among equal `published_at`, numbering keys non-increasing
lexicographically; among equal numbering keys, `guid` non-decreasing. -/
def claimOrder (a b : Episode) : Prop :=
  b.published_at ≤ a.published_at ∧
    (a.published_at = b.published_at →
      (pairLT (numKey b) (numKey a) ∨ numKey a = numKey b) ∧
      (numKey a = numKey b → a.guid ≤ b.guid))

theorem canonicalBefore_claimOrder {a b : Episode} (h : canonicalBefore a b) :
    claimOrder a b := by
  rcases h with h | ⟨he, hx⟩
  · exact ⟨Nat.le_of_lt h, fun heq => absurd heq (by omega)⟩
  · refine ⟨Nat.le_of_eq he.symm, fun _ => ?_⟩
    rcases hx with hx | ⟨hk, hg⟩
    · refine ⟨Or.inl hx, fun hkeq => ?_⟩
      exfalso
      rw [hkeq] at hx
      unfold pairLT at hx
      omega
    · exact ⟨Or.inr hk, fun _ => hg⟩

/-- C5: the rendered feed document lists the items of a feed in non-increasing
`published_at` order, ties broken by (season_number, episode_number)
descending, remaining ties by `guid`; the underlying order is total, and
antisymmetric on the (published_at, numbering, guid) key, hence
deterministic. -/
theorem episode_rendering_order (st : MetadataStore) (fid : Nat) :
    List.Pairwise claimOrder (st.listEpisodes fid) ∧
    (st.listEpisodes fid).Perm (st.episodes.filter (fun e => e.feed_id == fid)) ∧
    (∀ a b : Episode, canonicalBefore a b ∨ canonicalBefore b a) ∧
    (∀ a b : Episode, canonicalBefore a b → canonicalBefore b a →
      a.published_at = b.published_at ∧ numKey a = numKey b ∧ a.guid = b.guid) := by
  refine ⟨?_, ?_, ?_, ?_⟩
  · exact (List.sorted_insertionSort canonicalBefore _).imp
      (fun h => canonicalBefore_claimOrder h)
  · exact List.perm_insertionSort canonicalBefore _
  · exact fun a b => IsTotal.total a b
  · intro a b hab hba
    rcases hab with h1 | ⟨h1, hx⟩ <;> rcases hba with h2 | ⟨h2, hy⟩
    · omega
    · omega
    · omega
    · refine ⟨h1, ?_⟩
      rcases hx with hx | ⟨hk, hg⟩ <;> rcases hy with hy | ⟨hk2, hg2⟩
      · exfalso
        unfold pairLT at hx hy
        omega
      · exfalso
        rw [hk2] at hx
        unfold pairLT at hx
        omega
      · exfalso
        rw [hk] at hy
        unfold pairLT at hy
        omega
      · exact ⟨hk, le_antisymm hg hg2⟩

theorem episode_rendering_order_witness :
    (exState2.store.listEpisodes 1).Perm
      (exState2.store.episodes.filter (fun e => e.feed_id == 1)) ∧
    (canonicalBefore exEp exEp → canonicalBefore exEp exEp →
      exEp.published_at = exEp.published_at ∧ numKey exEp = numKey exEp ∧
        exEp.guid = exEp.guid) :=
  ⟨(episode_rendering_order exState2.store 1).2.1,
    (episode_rendering_order exState2.store 1).2.2.2 exEp exEp⟩

theorem not_n_mem_renderChannel (f : Feed) (u : String) (t : Nat) :
    Token.n t ∉ renderChannel f u := by
  intro h
  unfold renderChannel at h
  rcases hi : f.image_url with _ | iv <;> rcases hw : f.website_url with _ | wv <;>
    rw [hi, hw] at h <;> simp at h

theorem mem_n_renderItems : ∀ (es : List Episode) (t : Nat),
    Token.n t ∈ renderItems es →
    ∃ e ∈ es, t = e.published_at ∨ t = e.audio_length_bytes ∨
      e.season_number = some t ∨ e.episode_number = some t := by
  intro es
  induction es with
  | nil =>
    intro t ht
    simp [renderItems] at ht
  | cons e rest ih =>
    intro t ht
    rcases List.mem_append.1 ht with h | h
    · refine ⟨e, List.mem_cons_self _ _, ?_⟩
      unfold renderItem at h
      rcases hs : e.season_number with _ | sv <;>
        rcases he : e.episode_number with _ | ev <;>
        rw [hs, he] at h <;> simp at h <;>
        simp [hs, he] <;> tauto
    · rcases ih t h with ⟨e', he', hp⟩
      exact ⟨e', List.mem_cons_of_mem _ he', hp⟩

/-- C6: FeedBuilder is a pure function of its inputs — identical inputs give
identical documents byte for byte — and the output embeds no generation
timestamps: every number appearing in the document is a `published_at`,
enclosure length, or season/episode number already present on some input
episode. -/
theorem feed_builder_pure_deterministic :
    (∀ (f1 f2 : Feed) (u1 u2 : String) (es1 es2 : List Episode),
      f1 = f2 → u1 = u2 → es1 = es2 → buildFeed f1 u1 es1 = buildFeed f2 u2 es2) ∧
    (∀ (f : Feed) (u : String) (es : List Episode) (t : Nat),
      Token.n t ∈ buildFeed f u es →
      ∃ e ∈ es, t = e.published_at ∨ t = e.audio_length_bytes ∨
        e.season_number = some t ∨ e.episode_number = some t) := by
  constructor
  · intro f1 f2 u1 u2 es1 es2 hf hu hes
    rw [hf, hu, hes]
  · intro f u es t ht
    rcases List.mem_append.1 ht with hc | hi
    · exact absurd hc (not_n_mem_renderChannel f u t)
    · exact mem_n_renderItems es t hi

theorem feed_builder_pure_deterministic_witness :
    buildFeed exFeed "u" [exEp] = buildFeed exFeed "u" [exEp] ∧
    ∃ e ∈ [exEp], (7 : Nat) = e.published_at ∨ (7 : Nat) = e.audio_length_bytes ∨
      e.season_number = some 7 ∨ e.episode_number = some 7 :=
  ⟨feed_builder_pure_deterministic.1 exFeed exFeed "u" "u" [exEp] [exEp] rfl rfl rfl,
    feed_builder_pure_deterministic.2 exFeed "u" [exEp] 7 (by decide)⟩

/-- C8: parsing the feed document rendered by FeedBuilder yields, for each
episode in order, exactly the episode's title, description, enclosure URL,
enclosure length and enclosure type — a parse-after-render round trip is the
identity on these fields. -/
theorem feed_document_round_trip (f : Feed) (url : String) (es : List Episode) :
    parseFeed (buildFeed f url es) = some (es.map itemOfEpisode) ∧
    (es.map itemOfEpisode).map
        (fun it => (it.title, it.description, it.enclosure_url,
          it.enclosure_length, it.enclosure_type)) =
      es.map (fun e => (e.title, e.description, e.audio_url,
        e.audio_length_bytes, e.mime_type)) := by
  refine ⟨parseFeed_buildFeed f url es, ?_⟩
  simp [itemOfEpisode]

/-- C9: the URLs returned to the caller follow the fixed key layout under the
configured public base: `create_feed` returns the public URL of key
`{feed_slug}/feed.xml` and `add_episode` returns the feed URL together with
the public URL of key `{feed_slug}/episodes/{guid}.{ext}`. -/
theorem returned_url_layout :
    (∀ base key : String, publicURL base key = base ++ "/" ++ key) ∧
    (∀ slug : String, feedKey slug = slug ++ "/feed.xml") ∧
    (∀ slug guid ext : String,
      audioKey slug guid ext = slug ++ "/episodes/" ++ guid ++ "." ++ ext) ∧
    (∀ (s : PodState) (cfg : FeedConfig) (s' : PodState) (u : String),
      s.createFeed cfg FailPoint.nofail = (s', Except.ok u) →
      u = publicURL s.base_url (feedKey cfg.slug)) ∧
    (∀ (s : PodState) (slug : String) (art : AudioArtifact)
      (meta : PodcastMetadata) (s' : PodState) (fu au : String),
      s.addEpisode slug art meta FailPoint.nofail = (s', Except.ok (fu, au)) →
      fu = publicURL s.base_url (feedKey slug) ∧
      au = publicURL s.base_url
        (audioKey slug (guidFor slug meta art.content) art.ext)) := by
  refine ⟨fun _ _ => rfl, fun _ => rfl, fun _ _ _ => rfl, ?_, ?_⟩
  · intro s cfg s' u h
    rcases hm : s.store.createFeed cfg s.now with ⟨st1, r⟩
    rcases r with e | f
    · have heq : s.createFeed cfg FailPoint.nofail = (s, Except.error e) := by
        simp [PodState.createFeed, hm]
      rw [heq] at h
      simp at h
    · have heq : s.createFeed cfg FailPoint.nofail =
          (putObject { s with store := st1, now := s.now + 1 } (feedKey cfg.slug)
            (Blob.doc (buildFeed f (publicURL s.base_url (feedKey cfg.slug)) [])),
           Except.ok (publicURL s.base_url (feedKey cfg.slug))) := by
        simp [PodState.createFeed, hm]
      rw [heq] at h
      exact (Except.ok.inj (congrArg Prod.snd h)).symm
  · intro s slug art meta s' fu au h
    rcases hm : s.store.getFeed slug with _ | f
    · rw [PodState.addEpisode, hm] at h
      simp at h
    · rw [addEpisode_nofail_eq s slug art meta f hm] at h
      simp only [Prod.mk.injEq] at h
      have h2 := Except.ok.inj h.2
      have h21 := congrArg Prod.fst h2
      have h22 := congrArg Prod.snd h2
      simp at h21 h22
      exact ⟨h21.symm, h22.symm⟩

theorem returned_url_layout_witness :
    publicURL "https://pub-host" (feedKey "tech-talk") =
      "https://pub-host/tech-talk/feed.xml" ∧
    "https://pub-host/tech-talk/feed.xml" =
      publicURL exState0.base_url (feedKey exCfg.slug) :=
  ⟨rfl,
    returned_url_layout.2.2.2.1 exState0 exCfg exState1
      "https://pub-host/tech-talk/feed.xml" rfl⟩

theorem docItemCount_setNow (s : PodState) (n : Nat) (slug : String) :
    docItemCount { s with now := n } slug = docItemCount s slug := rfl

theorem docItemCount_putDoc (s : PodState) (slug : String) (toks : List Token) :
    docItemCount (putObject s (feedKey slug) (Blob.doc toks)) slug
      = (parseFeed toks).map List.length := by
  unfold docItemCount
  rw [getObject_putObject_self]

theorem docItemCount_addEpisode (s : PodState) (slug : String) (art : AudioArtifact)
    (meta : PodcastMetadata) (f : Feed) (hf : s.store.getFeed slug = some f) :
    docItemCount (s.addEpisode slug art meta FailPoint.nofail).1 slug
      = some (((s.store.upsertEpisode f.id (pendingData s slug art meta)).listEpisodes
          f.id).length) := by
  rw [addEpisode_nofail_eq s slug art meta f hf]
  show docItemCount
      { putObject
          { putObject s (audioKey slug (guidFor slug meta art.content) art.ext)
              (Blob.audio art.content) with
            store := s.store.upsertEpisode f.id (pendingData s slug art meta) }
          (feedKey slug)
          (Blob.doc (buildFeed f (publicURL s.base_url (feedKey slug))
            ((s.store.upsertEpisode f.id (pendingData s slug art meta)).listEpisodes f.id))) with
        now := s.now + 1 } slug = _
  rw [docItemCount_setNow, docItemCount_putDoc, parseFeed_buildFeed]
  simp

/-- C1: calling `add_episode` twice with identical guid inputs and identical
metadata leaves exactly one Episode row for that guid and produces a feed
document whose item count equals the count after the first call — the
same-guid re-invocation is a replace-then-rebuild republish, never the
insertion of a second episode. -/
theorem add_episode_idempotent_republish (s : PodState) (slug : String)
    (art : AudioArtifact) (meta : PodcastMetadata) (f : Feed)
    (hf : s.store.getFeed slug = some f)
    (hwf : s.store.guidCount f.id (guidFor slug meta art.content) ≤ 1) :
    ((s.addEpisode slug art meta FailPoint.nofail).1.addEpisode slug art meta
        FailPoint.nofail).1.store.guidCount f.id (guidFor slug meta art.content) = 1 ∧
    docItemCount ((s.addEpisode slug art meta FailPoint.nofail).1.addEpisode slug art meta
        FailPoint.nofail).1 slug =
      docItemCount (s.addEpisode slug art meta FailPoint.nofail).1 slug ∧
    (docItemCount (s.addEpisode slug art meta FailPoint.nofail).1 slug).isSome = true := by
  have ht1store : (s.addEpisode slug art meta FailPoint.nofail).1.store
      = s.store.upsertEpisode f.id (pendingData s slug art meta) := by
    rw [addEpisode_nofail_eq s slug art meta f hf]
    rfl
  have ht1feed : (s.addEpisode slug art meta FailPoint.nofail).1.store.getFeed slug
      = some f := by
    rw [ht1store, getFeed_upsert]
    exact hf
  have hg1 : (pendingData s slug art meta).guid = guidFor slug meta art.content := rfl
  have hg2 : (pendingData (s.addEpisode slug art meta FailPoint.nofail).1 slug art meta).guid
      = guidFor slug meta art.content := rfl
  have hc1 : (s.addEpisode slug art meta FailPoint.nofail).1.store.guidCount f.id
      (guidFor slug meta art.content) = 1 := by
    rw [ht1store, ← hg1, guidCount_upsert, hg1]
    by_cases h0 : s.store.guidCount f.id (guidFor slug meta art.content) = 0
    · rw [if_pos h0]
    · rw [if_neg h0]
      omega
  have ht2store : ((s.addEpisode slug art meta FailPoint.nofail).1.addEpisode slug art meta
      FailPoint.nofail).1.store
      = (s.addEpisode slug art meta FailPoint.nofail).1.store.upsertEpisode f.id
        (pendingData (s.addEpisode slug art meta FailPoint.nofail).1 slug art meta) := by
    rw [addEpisode_nofail_eq _ slug art meta f ht1feed]
    rfl
  have hc2 : ((s.addEpisode slug art meta FailPoint.nofail).1.addEpisode slug art meta
      FailPoint.nofail).1.store.guidCount f.id (guidFor slug meta art.content) = 1 := by
    rw [ht2store, ← hg2, guidCount_upsert, hg2]
    rw [if_neg (by rw [hc1]; exact one_ne_zero)]
    exact hc1
  have hdoc1 := docItemCount_addEpisode s slug art meta f hf
  have hdoc2 := docItemCount_addEpisode _ slug art meta f ht1feed
  refine ⟨hc2, ?_, ?_⟩
  · rw [hdoc2, hdoc1]
    have hlen : (((s.addEpisode slug art meta FailPoint.nofail).1.store.upsertEpisode f.id
        (pendingData (s.addEpisode slug art meta FailPoint.nofail).1 slug art
          meta)).listEpisodes f.id).length
        = ((s.store.upsertEpisode f.id (pendingData s slug art meta)).listEpisodes
            f.id).length := by
      rw [listEpisodes_length, feedFilter_upsert, hg2, hc1, ← ht1store, listEpisodes_length]
      simp
    rw [hlen]
  · rw [hdoc1]
    rfl

theorem add_episode_idempotent_republish_witness :
    ((exState1.addEpisode "tech-talk" exArt exMeta FailPoint.nofail).1.addEpisode "tech-talk"
        exArt exMeta FailPoint.nofail).1.store.guidCount exFeed.id
        (guidFor "tech-talk" exMeta exArt.content) = 1 ∧
    docItemCount ((exState1.addEpisode "tech-talk" exArt exMeta FailPoint.nofail).1.addEpisode
        "tech-talk" exArt exMeta FailPoint.nofail).1 "tech-talk" =
      docItemCount (exState1.addEpisode "tech-talk" exArt exMeta FailPoint.nofail).1
        "tech-talk" ∧
    (docItemCount (exState1.addEpisode "tech-talk" exArt exMeta FailPoint.nofail).1
        "tech-talk").isSome = true :=
  add_episode_idempotent_republish exState1 "tech-talk" exArt exMeta exFeed rfl (by decide)

/-- Feed row inserted by a fresh-name `create_feed` call at the notebook
interface. -/
def insertedFeedRow (st : MetadataStore) (now : Nat) (name title description
    author email language : String) (cats : List String) : Feed :=
  { id := st.next_feed_id
    slug := name
    title := title
    description := description
    author := author
    email := email
    language := language
    categories := cats
    image_url := none
    website_url := none
    created_at := now }

/-- C10 counterexample: not every `create_feed` call with a one-string
categories argument succeeds — a second call reusing the same `name` fails
with `DuplicateSlugError`. -/
theorem create_feed_repeat_name_fails :
    (PodcastPublisher.create_feed
        (PodcastPublisher.create_feed exState0 "tech-talk" "Tech Talk Podcast"
          "A podcast about technology" "Dhruv Baldawa" "me@example.com" "en"
          "Technology,News").1
        "tech-talk" "Tech Talk Podcast" "A podcast about technology" "Dhruv Baldawa"
        "me@example.com" "en" "Technology,News").2 =
      Except.error Err.duplicateSlug := by
  rfl

/-- C10 (amended): at the interface exercised by `publish.ipynb`,
`create_feed` identifies the feed by a `name` argument and accepts the
categories as one comma-separated string; every such call whose `name` is not
already in the store succeeds in producing a feed carrying the split
categories. -/
theorem create_feed_string_categories_succeeds (s : PodState)
    (name title description author email language categories : String)
    (hfresh : ∀ f ∈ s.store.feeds, f.slug ≠ name) :
    ∃ (s' : PodState) (u : String),
      PodcastPublisher.create_feed s name title description author email language
          categories = (s', Except.ok u) ∧
      ∃ fd ∈ s'.store.feeds, fd.slug = name ∧
        fd.categories = categories.splitOn "," := by
  have ha : s.store.feeds.any (fun f => f.slug == name) = false := by
    rw [List.any_eq_false]
    intro f hf
    simp [hfresh f hf]
  have hm : PodcastPublisher.create_feed s name title description author email language
      categories =
      (putObject
        { s with
          store :=
            { s.store with
              feeds := s.store.feeds ++
                [insertedFeedRow s.store s.now name title description author email
                  language (categories.splitOn ",")]
              next_feed_id := s.store.next_feed_id + 1 }
          now := s.now + 1 }
        (feedKey name)
        (Blob.doc (buildFeed
          (insertedFeedRow s.store s.now name title description author email
            language (categories.splitOn ","))
          (publicURL s.base_url (feedKey name)) [])),
       Except.ok (publicURL s.base_url (feedKey name))) := by
    simp [PodcastPublisher.create_feed, PodState.createFeed, MetadataStore.createFeed,
      ha, insertedFeedRow]
  refine ⟨_, _, hm, ?_⟩
  refine ⟨insertedFeedRow s.store s.now name title description author email
    language (categories.splitOn ","), ?_, rfl, rfl⟩
  simp [putObject]

theorem create_feed_string_categories_succeeds_witness :
    ∃ (s' : PodState) (u : String),
      PodcastPublisher.create_feed exState0 "tech-talk" "Tech Talk Podcast"
          "A podcast about technology" "Dhruv Baldawa" "me@example.com" "en"
          "Technology,News" = (s', Except.ok u) ∧
      ∃ fd ∈ s'.store.feeds, fd.slug = "tech-talk" ∧
        fd.categories = "Technology,News".splitOn "," :=
  create_feed_string_categories_succeeds exState0 "tech-talk" "Tech Talk Podcast"
    "A podcast about technology" "Dhruv Baldawa" "me@example.com" "en"
    "Technology,News" (by simp [exState0, initState, emptyStore])

end Gyandex
